import Mathlib

/-!
Shallow embedding of the dating-app backend (src/main.py and src/schemas.py):
the document-store state, the matching engine (`like_user`), the conversation
gate (`send_message`) and the read-only queries (`get_matches`,
`list_messages`), together with theorems about them.
-/

namespace DatingApp

/-- Row of a store collection: the store-assigned identifier and the document. -/
structure Row (α : Type) where
  id : Nat
  doc : α
deriving Repr, DecidableEq

/-- schemas.User: profile record; `gender` and `seeking` are kept as strings and
checked by `validUser`, mirroring the runtime-checked Literal annotations. -/
structure User where
  name : String
  gender : String
  seeking : String
  bio : Option String
  avatar_url : Option String
deriving Repr, DecidableEq

/-- schemas.Like: directed like edge between two user-id strings. -/
structure Like where
  liker_id : String
  liked_id : String
deriving Repr, DecidableEq

/-- schemas.Match: the ordered pair assigned at creation from the triggering
like, plus the stored (never read) `allow_both_first_move` flag. -/
structure Match where
  user1_id : String
  user2_id : String
  allow_both_first_move : Bool
deriving Repr, DecidableEq

/-- schemas.Message: a message in a match's conversation. -/
structure Message where
  match_id : String
  sender_id : String
  text : String
deriving Repr, DecidableEq

/-- Persisted message row. Modelled from the spec: the store layer
(`create_document` in database.py, which is not under src/) assigns an implicit
creation timestamp used solely for ordering; it is modelled as the value of the
store counter at insertion time, which increases with every insert. -/
structure MessageRow where
  id : Nat
  created_at : Nat
  doc : Message
deriving Repr, DecidableEq

/-- The MongoDB database state: one list per collection used by main.py, kept
in insertion (natural) order, plus the counter from which store-assigned
identifiers (and message creation timestamps) are drawn. -/
structure Store where
  users : List (Row User)
  likes : List (Row Like)
  matchRows : List (Row Match)
  messages : List MessageRow
  nextId : Nat
deriving Repr, DecidableEq

/-- The empty database. -/
def Store.empty : Store := ⟨[], [], [], [], 0⟩

/-- Value of one hexadecimal digit, `none` on any other character. -/
def hexDigit (c : Char) : Option Nat :=
  if '0' ≤ c ∧ c ≤ '9' then some (c.toNat - '0'.toNat)
  else if 'a' ≤ c ∧ c ≤ 'f' then some (c.toNat - 'a'.toNat + 10)
  else if 'A' ≤ c ∧ c ≤ 'F' then some (c.toNat - 'A'.toNat + 10)
  else none

/-- bson.ObjectId(s): succeeds exactly on 24-character hexadecimal strings,
yielding the 96-bit identifier value; any other string raises InvalidId. -/
def parseObjectId (s : String) : Option Nat :=
  if s.length = 24 ∧ s.data.all (fun c => (hexDigit c).isSome) then
    some (s.data.foldl (fun acc c => 16 * acc + (hexDigit c).getD 0) 0)
  else none

/-- Errors surfaced by the endpoints: `HTTPException(status, detail)`, the bson
InvalidId raised by `ObjectId()` on a malformed identifier string, and pydantic
validation failure (naming the offending field). -/
inductive ApiError where
  | httpError (status : Nat) (detail : String) : ApiError
  | invalidId : ApiError
  | validationError (field : String) : ApiError
deriving Repr, DecidableEq

/-- SelfLikeError of the spec: the HTTP 400 raised by like_user. -/
def SelfLikeError : ApiError := .httpError 400 "Cannot like yourself"

/-- MatchNotFoundError of the spec: the HTTP 404 raised by send_message. -/
def MatchNotFoundError : ApiError := .httpError 404 "Match not found"

/-- NotParticipantError of the spec: the HTTP 403 raised by send_message. -/
def NotParticipantError : ApiError := .httpError 403 "Not part of this match"

/-- db["like"].find_one({"liker_id": x, "liked_id": y}): first like row with
the given directed pair, in natural order. -/
def findOneLike (s : Store) (x y : String) : Option (Row Like) :=
  s.likes.find? (fun r => r.doc.liker_id == x && r.doc.liked_id == y)

/-- Filter of the both-orderings match query
{$or: [{user1_id: a, user2_id: b}, {user1_id: b, user2_id: a}]}. -/
def pairFilter (a b : String) (r : Row Match) : Bool :=
  (r.doc.user1_id == a && r.doc.user2_id == b) ||
    (r.doc.user1_id == b && r.doc.user2_id == a)

/-- db["match"].find_one of the both-orderings query for the pair {a, b}. -/
def findOneMatchPair (s : Store) (a b : String) : Option (Row Match) :=
  s.matchRows.find? (pairFilter a b)

/-- db["match"].find_one({"_id": oid}). -/
def findMatchById (s : Store) (oid : Nat) : Option (Row Match) :=
  s.matchRows.find? (fun r => r.id == oid)

/-- db["like"].find_one({"_id": oid}). -/
def findLikeById (s : Store) (oid : Nat) : Option (Row Like) :=
  s.likes.find? (fun r => r.id == oid)

/-- db["message"].find_one({"_id": oid}). -/
def findMessageById (s : Store) (oid : Nat) : Option MessageRow :=
  s.messages.find? (fun r => r.id == oid)

/-- db["user"].find_one({"_id": oid}). -/
def findUserById (s : Store) (oid : Nat) : Option (Row User) :=
  s.users.find? (fun r => r.id == oid)

/-- Modelled from the spec: `create_document("like", doc)` (database.py, not
under src/) inserts the record with a fresh store-assigned id and returns it. -/
def insertLike (s : Store) (l : Like) : Nat × Store :=
  (s.nextId,
    { s with likes := s.likes ++ [⟨s.nextId, l⟩], nextId := s.nextId + 1 })

/-- Modelled from the spec: `create_document("match", doc)`. -/
def insertMatch (s : Store) (m : Match) : Nat × Store :=
  (s.nextId,
    { s with matchRows := s.matchRows ++ [⟨s.nextId, m⟩], nextId := s.nextId + 1 })

/-- Modelled from the spec: `create_document("message", doc)`, which also
stamps the creation time used for ordering. -/
def insertMessage (s : Store) (m : Message) : Nat × Store :=
  (s.nextId,
    { s with messages := s.messages ++ [⟨s.nextId, s.nextId, m⟩],
             nextId := s.nextId + 1 })

/-- Modelled from the spec: `create_document("user", doc)`. -/
def insertUser (s : Store) (u : User) : Nat × Store :=
  (s.nextId,
    { s with users := s.users ++ [⟨s.nextId, u⟩], nextId := s.nextId + 1 })

/-- Result dict of POST /api/likes: the created like document and, under the
"match" key (present only when a reciprocal like exists), the found or created
match document. -/
structure LikeResult where
  like : Option (Row Like)
  match_doc : Option (Row Match)
deriving Repr, DecidableEq

/-- POST /api/likes (like_user in main.py): reject self-like with HTTP 400,
persist the Like, look for the reciprocal Like, and if one exists find or
create the Match for the unordered pair via the both-orderings query. Returns
the endpoint result together with the new store; raising leaves the store
unchanged. -/
def like_user (s : Store) (liker_id liked_id : String) :
    Except ApiError LikeResult × Store :=
  if liker_id = liked_id then
    (.error SelfLikeError, s)
  else
    let ins := insertLike s ⟨liker_id, liked_id⟩
    let s1 := ins.2
    let step : Option (Row Match) × Store :=
      match findOneLike s1 liked_id liker_id with
      | none => (none, s1)
      | some _ =>
        match findOneMatchPair s1 liker_id liked_id with
        | some existing => (some existing, s1)
        | none =>
          let insm := insertMatch s1 ⟨liker_id, liked_id, true⟩
          (findMatchById insm.2 insm.1, insm.2)
    (.ok ⟨findLikeById step.2 ins.1, step.1⟩, step.2)

/-- pydantic validation of schemas.Message: text between 1 and 1000 chars. -/
def validMessage (m : Message) : Bool :=
  decide (1 ≤ m.text.length) && decide (m.text.length ≤ 1000)

/-- POST /api/messages (send_message in main.py): parse the match id string
(bson InvalidId on a malformed one), look the Match up (404 when absent),
check that the sender is one of its two participants (403 otherwise), validate
the Message via pydantic and persist it. The match's allow_both_first_move
flag is never read. Raising leaves the store unchanged. -/
def send_message (s : Store) (match_id sender_id text : String) :
    Except ApiError (Option MessageRow) × Store :=
  match parseObjectId match_id with
  | none => (.error .invalidId, s)
  | some oid =>
    match findMatchById s oid with
    | none => (.error MatchNotFoundError, s)
    | some m =>
      if sender_id ≠ m.doc.user1_id ∧ sender_id ≠ m.doc.user2_id then
        (.error NotParticipantError, s)
      else if validMessage ⟨match_id, sender_id, text⟩ then
        let ins := insertMessage s ⟨match_id, sender_id, text⟩
        (.ok (findMessageById ins.2 ins.1), ins.2)
      else
        (.error (.validationError "text"), s)

/-- GET /api/messages/{match_id} (list_messages in main.py):
db["message"].find({"match_id": match_id}).sort("created_at", 1) — the rows
whose match_id field equals the argument, stably sorted ascending by creation
time. A pure read: it takes the store and returns only a list. -/
def list_messages (s : Store) (match_id : String) : List MessageRow :=
  (s.messages.filter (fun r => r.doc.match_id == match_id)).mergeSort
    (fun a b => decide (a.created_at ≤ b.created_at))

/-- GET /api/matches/{user_id} (get_matches in main.py): matches where the
user is either participant, in natural order. -/
def get_matches (s : Store) (user_id : String) : List (Row Match) :=
  s.matchRows.filter
    (fun r => r.doc.user1_id == user_id || r.doc.user2_id == user_id)

/-- pydantic validation of schemas.User: name 1..60 chars, gender in
{male, female}, seeking in {male, female, both}, bio at most 280 chars. -/
def validUser (u : User) : Bool :=
  decide (1 ≤ u.name.length) && decide (u.name.length ≤ 60) &&
    (u.gender == "male" || u.gender == "female") &&
    (u.seeking == "male" || u.seeking == "female" || u.seeking == "both") &&
    (match u.bio with
     | none => true
     | some b => decide (b.length ≤ 280))

/-- POST /api/users (create_user in main.py): validate via pydantic, insert,
and return the stored document. -/
def create_user (s : Store) (u : User) :
    Except ApiError (Option (Row User)) × Store :=
  if validUser u then
    let ins := insertUser s u
    (.ok (findUserById ins.2 ins.1), ins.2)
  else
    (.error (.validationError "user"), s)

/-- Number of Match rows stored for the unordered pair {a, b}
(both orderings counted, as in the both-orderings query). -/
def countPair (s : Store) (a b : String) : Nat :=
  (s.matchRows.filter (pairFilter a b)).length

/-- Stores reachable from the empty database through the mutating API
operations. -/
inductive Reachable : Store → Prop where
  | empty : Reachable Store.empty
  | user (s : Store) (u : User) : Reachable s → Reachable (create_user s u).2
  | like (s : Store) (a b : String) : Reachable s →
      Reachable (like_user s a b).2
  | message (s : Store) (mid sid t : String) : Reachable s →
      Reachable (send_message s mid sid t).2

/-- Sequence of further RecordLike calls, applied left to right. -/
def furtherCalls (s : Store) (calls : List (String × String)) : Store :=
  calls.foldl (fun st c => (like_user st c.1 c.2).2) s

/-- Invariant for the unordered pair {A, B}: exactly one stored Match row
passes the both-orderings filter, and both directed likes are present. -/
def InvPair (A B : String) (row : Row Match) (s : Store) : Prop :=
  s.matchRows.filter (pairFilter A B) = [row] ∧
    (findOneLike s A B).isSome ∧ (findOneLike s B A).isSome

/-- Referential integrity of messages: every stored Message row's match_id
string parses to the identifier of a stored Match row. -/
def MsgRefInv (s : Store) : Prop :=
  ∀ r ∈ s.messages, ∃ m ∈ s.matchRows, parseObjectId r.doc.match_id = some m.id

/-- Concrete store holding a single Match between "a" and "b" (id 0). -/
def storeAB : Store := ⟨[], [], [⟨0, ⟨"a", "b", true⟩⟩], [], 1⟩

/-- Concrete store holding a single Like from "a" to "b" (id 0). -/
def storeDup : Store := ⟨[], [⟨0, ⟨"a", "b"⟩⟩], [], [], 1⟩

/-- Concrete store holding a single Like from "b" to "a" (id 0). -/
def storeBA : Store := ⟨[], [⟨0, ⟨"b", "a"⟩⟩], [], [], 1⟩

/-! Helper lemmas. -/

theorem find?_eq_of_filter_eq_singleton {α : Type} {p : α → Bool} {a : α}
    {l : List α} (h : l.filter p = [a]) : l.find? p = some a := by
  induction l with
  | nil => simp at h
  | cons x xs ih =>
    by_cases hx : p x
    · rw [List.filter_cons_of_pos hx] at h
      obtain ⟨rfl, -⟩ : x = a ∧ xs.filter p = [] := by simpa using h
      exact List.find?_cons_of_pos _ hx
    · rw [List.filter_cons_of_neg hx] at h
      rw [List.find?_cons_of_neg _ hx]
      exact ih h

/-- The like inserted by the triggering call never satisfies the reciprocal
query's filter (the pair is not a self-like), so the reciprocal lookup of
like_user sees exactly the pre-existing likes. -/
theorem findOneLike_insertLike_rev (s : Store) {A B : String} (h : A ≠ B) :
    findOneLike (insertLike s ⟨A, B⟩).2 B A = findOneLike s B A := by
  simp [findOneLike, insertLike, List.find?_append, h]

/-- Inserting a like does not change the match collection. -/
theorem findOneMatchPair_insertLike (s : Store) (l : Like) (a b : String) :
    findOneMatchPair (insertLike s l).2 a b = findOneMatchPair s a b := rfl

/-- A find-one that succeeds keeps succeeding after rows are appended. -/
theorem findOneLike_isSome_append (s : Store) (l : Like) {x y : String}
    (h : (findOneLike s x y).isSome) :
    (findOneLike (insertLike s l).2 x y).isSome := by
  simp only [findOneLike, insertLike, List.find?_append, Option.isSome_or]
  simp only [findOneLike] at h
  simp [h]

/-- Branch lemma: like_user with no reciprocal like just inserts the Like. -/
theorem like_user_no_reciprocal (s : Store) {A B : String} (h : A ≠ B)
    (hr : findOneLike s B A = none) :
    like_user s A B =
      (.ok ⟨findLikeById (insertLike s ⟨A, B⟩).2 s.nextId, none⟩,
        (insertLike s ⟨A, B⟩).2) := by
  rw [like_user, if_neg h]
  simp only [findOneLike, insertLike, List.find?_append] at hr ⊢
  simp [hr, h]

/-- Branch lemma: like_user with a reciprocal like and an existing Match for
the pair returns that Match and inserts only the Like. -/
theorem like_user_existing (s : Store) {A B : String} (h : A ≠ B)
    (hr : (findOneLike s B A).isSome) {row : Row Match}
    (hm : findOneMatchPair s A B = some row) :
    like_user s A B =
      (.ok ⟨findLikeById (insertLike s ⟨A, B⟩).2 s.nextId, some row⟩,
        (insertLike s ⟨A, B⟩).2) := by
  rw [like_user, if_neg h]
  obtain ⟨rec, hrec⟩ := Option.isSome_iff_exists.mp hr
  simp only [findOneLike, insertLike, List.find?_append] at hrec ⊢
  simp only [findOneMatchPair] at hm
  simp [hrec, hm, h, findOneMatchPair]

/-- Branch lemma: like_user with a reciprocal like and no existing Match for
the pair inserts the Like and then the new Match. -/
theorem like_user_create (s : Store) {A B : String} (h : A ≠ B)
    (hr : (findOneLike s B A).isSome)
    (hm : findOneMatchPair s A B = none) :
    like_user s A B =
      (.ok ⟨findLikeById (insertMatch (insertLike s ⟨A, B⟩).2 ⟨A, B, true⟩).2
              s.nextId,
          findMatchById (insertMatch (insertLike s ⟨A, B⟩).2 ⟨A, B, true⟩).2
            (s.nextId + 1)⟩,
        (insertMatch (insertLike s ⟨A, B⟩).2 ⟨A, B, true⟩).2) := by
  rw [like_user, if_neg h]
  obtain ⟨rec, hrec⟩ := Option.isSome_iff_exists.mp hr
  simp only [findOneLike, insertLike, List.find?_append] at hrec ⊢
  simp only [findOneMatchPair] at hm
  simp [hrec, hm, h, findOneMatchPair, insertMatch]

/-! Settled claims. -/

/-- C5: RecordLike(A, A) always fails with SelfLikeError, for any identifier A
(the empty string included), and persists nothing: the store — likes, matches
and every other collection — is returned unchanged. -/
theorem recordLike_self_always_selfLikeError (s : Store) (A : String) :
    like_user s A A = (.error SelfLikeError, s) := by
  simp [like_user]

/-- C4 as stated is false at a concrete input: the malformed identifier "x"
does not refer to any existing Match, yet send_message on the empty store
fails with the bson InvalidId parse error, not with MatchNotFoundError. -/
theorem sendMessage_nonexistent_counterexample :
    (∀ m ∈ Store.empty.matchRows, parseObjectId "x" ≠ some m.id) ∧
      (send_message Store.empty "x" "a" "hi").1 = .error .invalidId ∧
      (send_message Store.empty "x" "a" "hi").1 ≠ .error MatchNotFoundError := by
  refine ⟨by simp [Store.empty], rfl, ?_⟩
  have h : (send_message Store.empty "x" "a" "hi").1 = .error .invalidId := rfl
  rw [h]
  simp [MatchNotFoundError]

/-- C4 amended: for every well-formed match_id (parseable as an ObjectId) that
refers to no existing Match row, send_message always fails with
MatchNotFoundError and leaves the store unchanged, for all sender_id and all
text. -/
theorem sendMessage_wellformed_nonexistent_404 (s : Store)
    (mid sid t : String) (oid : Nat) (hp : parseObjectId mid = some oid)
    (hn : findMatchById s oid = none) :
    send_message s mid sid t = (.error MatchNotFoundError, s) := by
  rw [send_message]
  simp only [hp, hn]

/-- Witness for the amended C4 at a concrete input. -/
theorem sendMessage_wellformed_nonexistent_404_witness :
    send_message Store.empty "000000000000000000000000" "a" "hi" =
      (.error MatchNotFoundError, Store.empty) :=
  sendMessage_wellformed_nonexistent_404 Store.empty
    "000000000000000000000000" "a" "hi" 0 (by decide) rfl

/-- C10: a match_id string that bson cannot parse as an ObjectId makes
send_message fail with the InvalidId parse error — raised before the match
lookup, the store untouched — and conversely MatchNotFoundError can only
arise for a well-formed identifier. -/
theorem sendMessage_malformed_id_parse_error (s : Store)
    (mid sid t : String) :
    (parseObjectId mid = none →
      send_message s mid sid t = (.error .invalidId, s)) ∧
      ((send_message s mid sid t).1 = .error MatchNotFoundError →
        (parseObjectId mid).isSome) := by
  constructor
  · intro h
    rw [send_message]
    simp only [h]
  · intro h
    cases hp : parseObjectId mid with
    | none =>
      rw [send_message] at h
      simp only [hp] at h
      simp [MatchNotFoundError] at h
    | some oid => simp

/-- Witness for C10 at a concrete input. -/
theorem sendMessage_malformed_id_parse_error_witness :
    send_message Store.empty "x" "a" "hi" = (.error .invalidId, Store.empty) :=
  (sendMessage_malformed_id_parse_error Store.empty "x" "a" "hi").1 rfl

/-- Branch lemma: send_message with an unparseable match_id. -/
theorem send_message_invalid_id (s : Store) (mid sid t : String)
    (h : parseObjectId mid = none) :
    send_message s mid sid t = (.error .invalidId, s) := by
  rw [send_message]
  simp only [h]

/-- Branch lemma: send_message when the sender is not a participant. -/
theorem send_message_not_participant (s : Store) (mid sid t : String)
    (oid : Nat) (m : Row Match) (hp : parseObjectId mid = some oid)
    (hm : findMatchById s oid = some m)
    (hne : sid ≠ m.doc.user1_id ∧ sid ≠ m.doc.user2_id) :
    send_message s mid sid t = (.error NotParticipantError, s) := by
  rw [send_message]
  simp only [hp, hm]
  rw [if_pos hne]

/-- Branch lemma: send_message when the text fails pydantic validation. -/
theorem send_message_invalid_text (s : Store) (mid sid t : String)
    (oid : Nat) (m : Row Match) (hp : parseObjectId mid = some oid)
    (hm : findMatchById s oid = some m)
    (hin : ¬(sid ≠ m.doc.user1_id ∧ sid ≠ m.doc.user2_id))
    (hv : validMessage ⟨mid, sid, t⟩ = false) :
    send_message s mid sid t = (.error (.validationError "text"), s) := by
  rw [send_message]
  simp only [hp, hm]
  rw [if_neg hin, if_neg (by simp [hv])]

/-- Branch lemma: send_message in the successful case persists the message. -/
theorem send_message_ok (s : Store) (mid sid t : String)
    (oid : Nat) (m : Row Match) (hp : parseObjectId mid = some oid)
    (hm : findMatchById s oid = some m)
    (hin : ¬(sid ≠ m.doc.user1_id ∧ sid ≠ m.doc.user2_id))
    (hv : validMessage ⟨mid, sid, t⟩ = true) :
    send_message s mid sid t =
      (.ok (findMessageById (insertMessage s ⟨mid, sid, t⟩).2 s.nextId),
        (insertMessage s ⟨mid, sid, t⟩).2) := by
  rw [send_message]
  simp only [hp, hm]
  rw [if_neg hin, if_pos hv]
  rfl

/-- C2: send_message never persists a Message referencing a non-existent
Match or a sender outside the match's two participants: on any error the
store is returned unchanged (no partial write), and on success the referenced
Match row exists in the pre-state, the sender is one of its two participants,
exactly one new Message row is appended, and no other collection changes. -/
theorem sendMessage_integrity (s : Store) (mid sid t : String) :
    (∀ e, (send_message s mid sid t).1 = .error e →
      (send_message s mid sid t).2 = s) ∧
      (∀ d, (send_message s mid sid t).1 = .ok d →
        ∃ m ∈ s.matchRows, parseObjectId mid = some m.id ∧
          (sid = m.doc.user1_id ∨ sid = m.doc.user2_id) ∧
          (send_message s mid sid t).2.messages =
            s.messages ++ [⟨s.nextId, s.nextId, ⟨mid, sid, t⟩⟩] ∧
          (send_message s mid sid t).2.matchRows = s.matchRows ∧
          (send_message s mid sid t).2.likes = s.likes ∧
          (send_message s mid sid t).2.users = s.users) := by
  cases hp : parseObjectId mid with
  | none =>
    rw [send_message_invalid_id s mid sid t hp]
    exact ⟨fun e _ => rfl, fun d hd => by simp at hd⟩
  | some oid =>
    cases hm : findMatchById s oid with
    | none =>
      rw [sendMessage_wellformed_nonexistent_404 s mid sid t oid hp hm]
      exact ⟨fun e _ => rfl, fun d hd => by simp at hd⟩
    | some m =>
      have hmem : m ∈ s.matchRows := List.mem_of_find?_eq_some hm
      have hid : m.id = oid := by
        have := List.find?_some hm
        simpa using this
      by_cases hpart : sid ≠ m.doc.user1_id ∧ sid ≠ m.doc.user2_id
      · rw [send_message_not_participant s mid sid t oid m hp hm hpart]
        exact ⟨fun e _ => rfl, fun d hd => by simp at hd⟩
      · cases hv : validMessage ⟨mid, sid, t⟩ with
        | false =>
          rw [send_message_invalid_text s mid sid t oid m hp hm hpart hv]
          exact ⟨fun e _ => rfl, fun d hd => by simp at hd⟩
        | true =>
          rw [send_message_ok s mid sid t oid m hp hm hpart hv]
          constructor
          · intro e he
            simp at he
          · intro d _
            refine ⟨m, hmem, by simp [hp, hid], ?_, ?_, ?_, ?_, ?_⟩
            · rcases not_and_or.mp hpart with h1 | h2
              · exact Or.inl (not_not.mp h1)
              · exact Or.inr (not_not.mp h2)
            all_goals simp [insertMessage]

/-- Witness for C2 at a concrete input where the send succeeds. -/
theorem sendMessage_integrity_witness :
    ∃ m ∈ storeAB.matchRows,
      parseObjectId "000000000000000000000000" = some m.id ∧
        ("a" = m.doc.user1_id ∨ "a" = m.doc.user2_id) ∧
        (send_message storeAB "000000000000000000000000" "a" "hi").2.messages =
          storeAB.messages ++
            [⟨storeAB.nextId, storeAB.nextId,
              ⟨"000000000000000000000000", "a", "hi"⟩⟩] ∧
        (send_message storeAB "000000000000000000000000" "a" "hi").2.matchRows =
          storeAB.matchRows ∧
        (send_message storeAB "000000000000000000000000" "a" "hi").2.likes =
          storeAB.likes ∧
        (send_message storeAB "000000000000000000000000" "a" "hi").2.users =
          storeAB.users :=
  (sendMessage_integrity storeAB "000000000000000000000000" "a" "hi").2
    (some ⟨1, 1, ⟨"000000000000000000000000", "a", "hi"⟩⟩) rfl

/-- C3: for a stored Match between users A and B, send_message fails with
NotParticipantError for every sender outside {A, B} and leaves the store
unchanged, while both A and B succeed for any text of valid length. The
match's allow_both_first_move flag is left universally quantified (the row is
arbitrary beyond its two participant fields): the outcome never reads it. -/
theorem sendMessage_participant_gate (s : Store) (mid : String) (oid : Nat)
    (m : Row Match) (A B : String) (hp : parseObjectId mid = some oid)
    (hf : findMatchById s oid = some m) (h1 : m.doc.user1_id = A)
    (h2 : m.doc.user2_id = B) :
    (∀ C t, C ≠ A → C ≠ B →
      send_message s mid C t = (.error NotParticipantError, s)) ∧
      (∀ t, 1 ≤ t.length → t.length ≤ 1000 →
        (∃ d, (send_message s mid A t).1 = .ok d) ∧
          ∃ d, (send_message s mid B t).1 = .ok d) := by
  constructor
  · intro C t hCA hCB
    exact send_message_not_participant s mid C t oid m hp hf
      ⟨h1 ▸ hCA, h2 ▸ hCB⟩
  · intro t hlen1 hlen2
    have hv : ∀ sid, validMessage ⟨mid, sid, t⟩ = true := by
      intro sid
      simp [validMessage, hlen1, hlen2]
    constructor
    · refine ⟨findMessageById (insertMessage s ⟨mid, A, t⟩).2 s.nextId, ?_⟩
      rw [send_message_ok s mid A t oid m hp hf (by simp [h1]) (hv A)]
    · refine ⟨findMessageById (insertMessage s ⟨mid, B, t⟩).2 s.nextId, ?_⟩
      rw [send_message_ok s mid B t oid m hp hf (by simp [h2]) (hv B)]

/-- Witness for C3 at a concrete input: the outsider "c" is rejected. -/
theorem sendMessage_participant_gate_witness :
    send_message storeAB "000000000000000000000000" "c" "hi" =
      (.error NotParticipantError, storeAB) :=
  (sendMessage_participant_gate storeAB "000000000000000000000000" 0
      ⟨0, ⟨"a", "b", true⟩⟩ "a" "b" (by decide) rfl rfl rfl).1 "c" "hi"
    (by decide) (by decide)

/-- C6: when like_user finds a reciprocal Like and no existing Match for the
unordered pair, the Match row it creates and persists is exactly
user1_id = liker_id, user2_id = liked_id (the orientation of the triggering
like) with allow_both_first_move = true; and when all stored match ids are
below the store counter (always true of store-assigned ids), that new row is
also the match document returned. -/
theorem recordLike_created_match_orientation (s : Store) (A B : String)
    (h : A ≠ B) (hr : (findOneLike s B A).isSome = true)
    (hm : findOneMatchPair s A B = none)
    (hfresh : ∀ r ∈ s.matchRows, r.id < s.nextId) :
    (like_user s A B).2.matchRows =
      s.matchRows ++ [⟨s.nextId + 1, ⟨A, B, true⟩⟩] ∧
      ∃ lk, (like_user s A B).1 =
        .ok ⟨lk, some ⟨s.nextId + 1, ⟨A, B, true⟩⟩⟩ := by
  rw [like_user_create s h hr hm]
  have hfind : findMatchById
      (insertMatch (insertLike s ⟨A, B⟩).2 ⟨A, B, true⟩).2 (s.nextId + 1) =
      some ⟨s.nextId + 1, ⟨A, B, true⟩⟩ := by
    have hnone : List.find? (fun r => r.id == s.nextId + 1) s.matchRows =
        none := by
      rw [List.find?_eq_none]
      intro x hx
      simp only [beq_iff_eq]
      exact Nat.ne_of_lt (Nat.lt_succ_of_lt (hfresh x hx))
    simp [insertMatch, insertLike, findMatchById, List.find?_append, hnone]
  constructor
  · simp [insertMatch, insertLike]
  · refine ⟨findLikeById
      (insertMatch (insertLike s ⟨A, B⟩).2 ⟨A, B, true⟩).2 s.nextId, ?_⟩
    rw [hfind]

/-- Witness for C6 at a concrete input: "b" already likes "a", then "a" likes
"b" and the created match is oriented (user1 = "a", user2 = "b"). -/
theorem recordLike_created_match_orientation_witness :
    (like_user storeBA "a" "b").2.matchRows =
      storeBA.matchRows ++ [⟨2, ⟨"a", "b", true⟩⟩] ∧
      ∃ lk, (like_user storeBA "a" "b").1 =
        .ok ⟨lk, some ⟨2, ⟨"a", "b", true⟩⟩⟩ :=
  recordLike_created_match_orientation storeBA "a" "b" (by decide) (by decide)
    rfl (by simp [storeBA])

/-- C7: every successful RecordLike writes exactly one new Like row with the
given directed pair — appended even when an identical Like already exists (no
deduplication) — writes at most one Match row (none exactly when no
reciprocal Like exists or a Match already exists for the pair), and modifies
no other collection. -/
theorem recordLike_frame (s : Store) (A B : String) (h : A ≠ B) :
    (∃ res, (like_user s A B).1 = .ok res) ∧
      (like_user s A B).2.likes = s.likes ++ [⟨s.nextId, ⟨A, B⟩⟩] ∧
      (like_user s A B).2.users = s.users ∧
      (like_user s A B).2.messages = s.messages ∧
      (((findOneLike s B A).isSome ∧ findOneMatchPair s A B = none) →
        ∃ r, (like_user s A B).2.matchRows = s.matchRows ++ [r]) ∧
      ((findOneLike s B A = none ∨ (findOneMatchPair s A B).isSome) →
        (like_user s A B).2.matchRows = s.matchRows) := by
  cases hr : findOneLike s B A with
  | none =>
    rw [like_user_no_reciprocal s h hr]
    refine ⟨⟨_, rfl⟩, by simp [insertLike], by simp [insertLike],
      by simp [insertLike], ?_, by simp [insertLike]⟩
    intro hcon
    simp at hcon
  | some rec =>
    cases hm : findOneMatchPair s A B with
    | some row =>
      rw [like_user_existing s h (by simp [hr]) hm]
      refine ⟨⟨_, rfl⟩, by simp [insertLike], by simp [insertLike],
        by simp [insertLike], ?_, by simp [insertLike]⟩
      intro hcon
      simp at hcon
    | none =>
      rw [like_user_create s h (by simp [hr]) hm]
      refine ⟨⟨_, rfl⟩, by simp [insertLike, insertMatch],
        by simp [insertLike, insertMatch], by simp [insertLike, insertMatch],
        ?_, ?_⟩
      · intro _
        exact ⟨⟨s.nextId + 1, ⟨A, B, true⟩⟩,
          by simp [insertLike, insertMatch]⟩
      · intro hcon
        rcases hcon with h1 | h2
        · simp at h1
        · simp at h2

/-- Witness for C7 at a concrete input where an identical Like already
exists: the duplicate row is appended and no Match is written. -/
theorem recordLike_frame_witness :
    (∃ res, (like_user storeDup "a" "b").1 = .ok res) ∧
      (like_user storeDup "a" "b").2.likes =
        storeDup.likes ++ [⟨1, ⟨"a", "b"⟩⟩] ∧
      (like_user storeDup "a" "b").2.users = storeDup.users ∧
      (like_user storeDup "a" "b").2.messages = storeDup.messages ∧
      (((findOneLike storeDup "b" "a").isSome ∧
          findOneMatchPair storeDup "a" "b" = none) →
        ∃ r, (like_user storeDup "a" "b").2.matchRows =
          storeDup.matchRows ++ [r]) ∧
      ((findOneLike storeDup "b" "a" = none ∨
          (findOneMatchPair storeDup "a" "b").isSome) →
        (like_user storeDup "a" "b").2.matchRows = storeDup.matchRows) :=
  recordLike_frame storeDup "a" "b" (by decide)

/-- C8: list_messages returns exactly the stored Message rows whose match_id
field equals the argument — a permutation of the natural-order filter, hence
all of them, with no length limit — sorted in non-decreasing creation-time
order. It is a pure read: a function of the store value returning only a
list, so repeated calls on an unchanged store return the same sequence. -/
theorem listMessages_filter_sorted (s : Store) (mid : String) :
    (list_messages s mid).Perm
        (s.messages.filter (fun r => r.doc.match_id == mid)) ∧
      (list_messages s mid).Pairwise
        (fun a b => a.created_at ≤ b.created_at) := by
  constructor
  · exact List.mergeSort_perm _ _
  · have h : (list_messages s mid).Pairwise
        (fun a b => decide (a.created_at ≤ b.created_at) = true) := by
      rw [list_messages]
      exact @List.sorted_mergeSort MessageRow
        (fun a b => decide (a.created_at ≤ b.created_at))
        (fun a b c hab hbc => by
          simp only [decide_eq_true_eq] at *
          omega)
        (fun a b => by simp [Nat.le_total])
        (s.messages.filter (fun r => r.doc.match_id == mid))
    exact h.imp (fun hab => by simpa using hab)

/-- Frame of create_user: messages and matches are untouched. -/
theorem create_user_frame (s : Store) (u : User) :
    (create_user s u).2.messages = s.messages ∧
      (create_user s u).2.matchRows = s.matchRows := by
  cases hv : validUser u <;> simp [create_user, hv, insertUser]

/-- Frame of like_user for referential integrity: messages are untouched and
every stored Match row survives. -/
theorem like_user_messages_matches (s : Store) (a b : String) :
    (like_user s a b).2.messages = s.messages ∧
      ∀ m ∈ s.matchRows, m ∈ (like_user s a b).2.matchRows := by
  by_cases h : a = b
  · subst h
    rw [recordLike_self_always_selfLikeError]
    exact ⟨rfl, fun m hm => hm⟩
  · cases hr : findOneLike s b a with
    | none =>
      rw [like_user_no_reciprocal s h hr]
      exact ⟨rfl, fun m hm => hm⟩
    | some rec =>
      cases hm : findOneMatchPair s a b with
      | some row =>
        rw [like_user_existing s h (by simp [hr]) hm]
        exact ⟨rfl, fun m hmm => hmm⟩
      | none =>
        rw [like_user_create s h (by simp [hr]) hm]
        refine ⟨rfl, fun m hmm => ?_⟩
        simp only [insertMatch, insertLike]
        exact List.mem_append_left _ hmm

/-- Frame of send_message for referential integrity: matches are untouched
and at most the one checked message is appended. -/
theorem send_message_inv_step (s : Store) (mid sid t : String) :
    (send_message s mid sid t).2.matchRows = s.matchRows ∧
      ((send_message s mid sid t).2.messages = s.messages ∨
        ∃ oid m, parseObjectId mid = some oid ∧
          findMatchById s oid = some m ∧
          (send_message s mid sid t).2.messages =
            s.messages ++ [⟨s.nextId, s.nextId, ⟨mid, sid, t⟩⟩]) := by
  cases hp : parseObjectId mid with
  | none =>
    rw [send_message_invalid_id s mid sid t hp]
    exact ⟨rfl, Or.inl rfl⟩
  | some oid =>
    cases hm : findMatchById s oid with
    | none =>
      rw [sendMessage_wellformed_nonexistent_404 s mid sid t oid hp hm]
      exact ⟨rfl, Or.inl rfl⟩
    | some m =>
      by_cases hpart : sid ≠ m.doc.user1_id ∧ sid ≠ m.doc.user2_id
      · rw [send_message_not_participant s mid sid t oid m hp hm hpart]
        exact ⟨rfl, Or.inl rfl⟩
      · cases hv : validMessage ⟨mid, sid, t⟩ with
        | false =>
          rw [send_message_invalid_text s mid sid t oid m hp hm hpart hv]
          exact ⟨rfl, Or.inl rfl⟩
        | true =>
          rw [send_message_ok s mid sid t oid m hp hm hpart hv]
          exact ⟨by simp [insertMessage], Or.inr ⟨oid, m, rfl, hm,
            by simp [insertMessage]⟩⟩

/-- Every reachable store satisfies referential integrity of messages. -/
theorem reachable_msgRefInv (s : Store) (hs : Reachable s) : MsgRefInv s := by
  induction hs with
  | empty =>
    intro r hr
    simp [Store.empty] at hr
  | user s u _ ih =>
    intro r hr
    obtain ⟨hmsg, hmat⟩ := create_user_frame s u
    rw [hmsg] at hr
    obtain ⟨m, hm, hpm⟩ := ih r hr
    exact ⟨m, by rw [hmat]; exact hm, hpm⟩
  | like s a b _ ih =>
    intro r hr
    obtain ⟨hmsg, hmat⟩ := like_user_messages_matches s a b
    rw [hmsg] at hr
    obtain ⟨m, hm, hpm⟩ := ih r hr
    exact ⟨m, hmat m hm, hpm⟩
  | message s mid sid t _ ih =>
    intro r hr
    obtain ⟨hmat, hmsg⟩ := send_message_inv_step s mid sid t
    rcases hmsg with hsame | ⟨oid, m, hpar, hfind, happ⟩
    · rw [hsame] at hr
      obtain ⟨m2, hm2, hpm2⟩ := ih r hr
      exact ⟨m2, by rw [hmat]; exact hm2, hpm2⟩
    · rw [happ] at hr
      rcases List.mem_append.mp hr with hold | hnew
      · obtain ⟨m2, hm2, hpm2⟩ := ih r hold
        exact ⟨m2, by rw [hmat]; exact hm2, hpm2⟩
      · have hreq : r = ⟨s.nextId, s.nextId, ⟨mid, sid, t⟩⟩ := by
          simpa using hnew
        subst hreq
        have hid : m.id = oid := by simpa using List.find?_some hfind
        exact ⟨m, by rw [hmat]; exact List.mem_of_find?_eq_some hfind,
          by simp [hpar, hid]⟩

/-- C9: list_messages does not fail on a match_id for which no Match record
exists — it performs no existence check against the match collection (unlike
send_message) — and on any reachable store it returns the empty sequence for
such an id. -/
theorem listMessages_nonexistent_empty (s : Store) (mid : String)
    (hs : Reachable s)
    (hno : ∀ m ∈ s.matchRows, parseObjectId mid ≠ some m.id) :
    list_messages s mid = [] := by
  have hinv := reachable_msgRefInv s hs
  have hfil : s.messages.filter (fun r => r.doc.match_id == mid) = [] := by
    rw [List.filter_eq_nil_iff]
    intro r hr hmatch
    obtain ⟨m, hm, hpm⟩ := hinv r hr
    have heq : r.doc.match_id = mid := by simpa using hmatch
    rw [heq] at hpm
    exact hno m hm hpm
  rw [list_messages, hfil]
  exact List.mergeSort_nil

/-- Witness for C9 at a concrete input: the empty store is reachable and the
malformed id "x" names no match. -/
theorem listMessages_nonexistent_empty_witness :
    list_messages Store.empty "x" = [] :=
  listMessages_nonexistent_empty Store.empty "x" Reachable.empty
    (by intro m hm; simp [Store.empty] at hm)

/-- The both-orderings filter is symmetric in the pair. -/
theorem pairFilter_comm (a b : String) : pairFilter a b = pairFilter b a := by
  funext r
  unfold pairFilter
  exact Bool.or_comm _ _

/-- An empty filter forces an empty find-one on the same predicate. -/
theorem find?_eq_none_of_filter_eq_nil {α : Type} {p : α → Bool}
    {l : List α} (h : l.filter p = []) : l.find? p = none := by
  rw [List.find?_eq_none]
  exact List.filter_eq_nil_iff.mp h

/-- A successful find-one keeps succeeding after rows are appended. -/
theorem find?_isSome_append {α : Type} (p : α → Bool) (l l' : List α)
    (h : (l.find? p).isSome) : ((l ++ l').find? p).isSome := by
  rw [List.find?_isSome] at *
  obtain ⟨x, hx, hpx⟩ := h
  exact ⟨x, List.mem_append_left _ hx, hpx⟩

/-- Step lemma for C1: one further like_user call with either orientation of
an already-matched pair finds the existing Match row by the both-orderings
query, returns it, writes no second Match, and preserves the invariant. -/
theorem like_user_pair_step (s : Store) (A B X Y : String) (row : Row Match)
    (hAB : A ≠ B) (hor : (X = A ∧ Y = B) ∨ (X = B ∧ Y = A))
    (hinv : InvPair A B row s) :
    (∃ lk, (like_user s X Y).1 = .ok ⟨lk, some row⟩) ∧
      (like_user s X Y).2.matchRows = s.matchRows ∧
      InvPair A B row (like_user s X Y).2 := by
  obtain ⟨hfil, hab, hba⟩ := hinv
  have hXY : X ≠ Y := by
    rcases hor with ⟨rfl, rfl⟩ | ⟨rfl, rfl⟩
    · exact hAB
    · exact Ne.symm hAB
  have hrecip : (findOneLike s Y X).isSome := by
    rcases hor with ⟨rfl, rfl⟩ | ⟨rfl, rfl⟩
    · exact hba
    · exact hab
  have hfilXY : s.matchRows.filter (pairFilter X Y) = [row] := by
    rcases hor with ⟨rfl, rfl⟩ | ⟨rfl, rfl⟩
    · exact hfil
    · rw [pairFilter_comm]
      exact hfil
  have hfind : findOneMatchPair s X Y = some row := by
    unfold findOneMatchPair
    exact find?_eq_of_filter_eq_singleton hfilXY
  rw [like_user_existing s hXY hrecip hfind]
  refine ⟨⟨_, rfl⟩, by simp [insertLike], ?_, ?_, ?_⟩
  · simp only [insertLike]
    exact hfil
  · exact findOneLike_isSome_append s _ hab
  · exact findOneLike_isSome_append s _ hba

/-- Any sequence of further like_user calls with either orientation of an
already-matched pair preserves the pair invariant. -/
theorem furtherCalls_pair_preserve (A B : String) (row : Row Match)
    (hAB : A ≠ B) (calls : List (String × String)) :
    ∀ s : Store, (∀ c ∈ calls, c = (A, B) ∨ c = (B, A)) →
      InvPair A B row s → InvPair A B row (furtherCalls s calls) := by
  induction calls with
  | nil =>
    intro s _ hinv
    simpa [furtherCalls] using hinv
  | cons c rest ih =>
    intro s hc hinv
    have hor : (c.1 = A ∧ c.2 = B) ∨ (c.1 = B ∧ c.2 = A) := by
      rcases hc c (by simp) with h | h
      · left
        rw [h]
        exact ⟨rfl, rfl⟩
      · right
        rw [h]
        exact ⟨rfl, rfl⟩
    have hstep := like_user_pair_step s A B c.1 c.2 row hAB hor hinv
    have hfold : furtherCalls s (c :: rest) =
        furtherCalls (like_user s c.1 c.2).2 rest := by
      simp [furtherCalls]
    rw [hfold]
    exact ih _ (fun x hx => hc x (List.mem_cons_of_mem c hx)) hstep.2.2

/-- The first two reciprocal calls establish the pair invariant: some match
row for {A, B} is created exactly once, whichever call completes the pair. -/
theorem two_likes_establish (s : Store) (A B : String) (hAB : A ≠ B)
    (h0 : s.matchRows.filter (pairFilter A B) = []) :
    ∃ row, InvPair A B row ((like_user (like_user s A B).2 B A).2) := by
  have hnone : findOneMatchPair s A B = none := by
    unfold findOneMatchPair
    exact find?_eq_none_of_filter_eq_nil h0
  cases hr : findOneLike s B A with
  | some rec =>
    rw [like_user_create s hAB (by simp [hr]) hnone]
    unfold findOneLike at hr
    have hrec1 : rec ∈ s.likes := List.mem_of_find?_eq_some hr
    have hrec2 := List.find?_some hr
    have hinv1 : InvPair A B ⟨s.nextId + 1, ⟨A, B, true⟩⟩
        (insertMatch (insertLike s ⟨A, B⟩).2 ⟨A, B, true⟩).2 := by
      refine ⟨?_, ?_, ?_⟩
      · simp [insertMatch, insertLike, List.filter_append, h0, pairFilter]
      · simp only [findOneLike, insertMatch, insertLike, List.find?_isSome]
        exact ⟨⟨s.nextId, ⟨A, B⟩⟩, List.mem_append_right _ (by simp),
          by simp⟩
      · simp only [findOneLike, insertMatch, insertLike, List.find?_isSome]
        exact ⟨rec, List.mem_append_left _ hrec1, hrec2⟩
    exact ⟨⟨s.nextId + 1, ⟨A, B, true⟩⟩,
      (like_user_pair_step _ A B B A _ hAB (Or.inr ⟨rfl, rfl⟩) hinv1).2.2⟩
  | none =>
    rw [like_user_no_reciprocal s hAB hr]
    have hr2 : (findOneLike (insertLike s ⟨A, B⟩).2 A B).isSome := by
      simp only [findOneLike, insertLike, List.find?_isSome]
      exact ⟨⟨s.nextId, ⟨A, B⟩⟩, List.mem_append_right _ (by simp), by simp⟩
    have hm2 : findOneMatchPair (insertLike s ⟨A, B⟩).2 B A = none := by
      unfold findOneMatchPair
      rw [pairFilter_comm]
      exact find?_eq_none_of_filter_eq_nil h0
    rw [like_user_create _ (Ne.symm hAB) hr2 hm2]
    refine ⟨⟨(insertLike s ⟨A, B⟩).2.nextId + 1, ⟨B, A, true⟩⟩, ?_, ?_, ?_⟩
    · simp [insertMatch, insertLike, List.filter_append, h0, pairFilter]
    · simp only [findOneLike, insertMatch, insertLike, List.find?_isSome]
      exact ⟨⟨s.nextId, ⟨A, B⟩⟩,
        List.mem_append_left _ (List.mem_append_right _ (by simp)), by simp⟩
    · simp only [findOneLike, insertMatch, insertLike, List.find?_isSome]
      exact ⟨⟨s.nextId + 1, ⟨B, A⟩⟩, List.mem_append_right _ (by simp),
        by simp⟩

/-- C1: from any store holding no Match for the distinct pair {A, B},
RecordLike(A,B) followed by RecordLike(B,A) leaves exactly one Match row for
the unordered pair, and after any sequence of further RecordLike calls with
either orientation (executed sequentially) exactly that one row remains: each
further call finds the existing Match by the both-orderings query, returns it
as the result's match document, and writes no second Match. -/
theorem recordLike_exactly_one_match (s : Store) (A B : String) (hAB : A ≠ B)
    (h0 : countPair s A B = 0) :
    countPair ((like_user (like_user s A B).2 B A).2) A B = 1 ∧
      ∃ row : Row Match,
        ∀ calls : List (String × String),
          (∀ c ∈ calls, c = (A, B) ∨ c = (B, A)) →
          countPair
              (furtherCalls ((like_user (like_user s A B).2 B A).2) calls)
              A B = 1 ∧
            ∀ X Y, (X = A ∧ Y = B) ∨ (X = B ∧ Y = A) →
              (∃ lk, (like_user
                  (furtherCalls ((like_user (like_user s A B).2 B A).2) calls)
                  X Y).1 = .ok ⟨lk, some row⟩) ∧
                (like_user
                    (furtherCalls ((like_user (like_user s A B).2 B A).2)
                      calls) X Y).2.matchRows =
                  (furtherCalls ((like_user (like_user s A B).2 B A).2)
                      calls).matchRows := by
  have h0' : s.matchRows.filter (pairFilter A B) = [] := by
    unfold countPair at h0
    exact List.length_eq_zero.mp h0
  obtain ⟨row, hinv2⟩ := two_likes_establish s A B hAB h0'
  constructor
  · unfold countPair
    rw [hinv2.1]
    rfl
  · refine ⟨row, fun calls hcalls => ?_⟩
    have hpres := furtherCalls_pair_preserve A B row hAB calls _ hcalls hinv2
    constructor
    · unfold countPair
      rw [hpres.1]
      rfl
    · intro X Y hor
      have hstep := like_user_pair_step _ A B X Y row hAB hor hpres
      exact ⟨hstep.1, hstep.2.1⟩

/-- Witness for C1 at a concrete input: two users of the empty store. -/
theorem recordLike_exactly_one_match_witness :
    countPair ((like_user (like_user Store.empty "a" "b").2 "b" "a").2)
      "a" "b" = 1 :=
  (recordLike_exactly_one_match Store.empty "a" "b" (by decide) rfl).1

end DatingApp
